import Mathlib

/-!
# Verification of the Groq chatbot's state management

A shallow embedding of the state-management logic of `app.py`: the
configuration-keyed memory cache, the clear-chat button, the turn-execution
loop around `conversation.predict`, the typing-effect reveal, and the
plain-text history export.  External library behaviour that the script relies
on (LangChain's `ConversationChain` / memory classes) is embedded following
the library's documented semantics, which the script delegates to.
-/

set_option autoImplicit false

namespace GroqChatbot

/-- The `type` tag of a LangChain chat message: `"human"`, `"ai"`, or
`"system"` (the latter only appears in summary-memory context loads, never in
`chat_memory.messages`). -/
inductive Role where
  | human
  | ai
  | system
  deriving DecidableEq, Repr

/-- The string stored in a LangChain message's `type` attribute, read by
`getattr(m, "type", "ai")` in the script. -/
def Role.pyType : Role → String
  | .human => "human"
  | .ai => "ai"
  | .system => "system"

/-- One chat message: a role tag plus text content.  Mirrors the entries of
`st.session_state.memory.chat_memory.messages`. -/
structure Message where
  role : Role
  content : String
  deriving DecidableEq, Repr

/-- The constructor arguments captured by the summarizer LLM built at memory
creation time: `ChatGroq(model_name=model_name, temperature=0,
api_key=GROQ_API_KEY)` (line 126 of `app.py`). -/
structure SummarizerConfig where
  model_name : String
  api_key : String
  deriving DecidableEq, Repr

/-- Which LangChain memory class the session-state memory object is an
instance of, with the strategy-specific data fixed at construction. -/
inductive MemoryKind where
  | buffer
  | summary (summarizer : SummarizerConfig)
  | window (k : Nat)
  deriving DecidableEq, Repr

/-- The session-state memory object: its class/strategy, its
`chat_memory.messages` list, and (for the summary strategy) the running
summary buffer. -/
structure Memory where
  kind : MemoryKind
  messages : List Message
  summaryBuffer : String
  deriving DecidableEq, Repr

/-- `memory.clear()`: empties `chat_memory` and, for summary memory, resets
the running summary buffer to the empty string. -/
def Memory.clear (m : Memory) : Memory :=
  { m with messages := [], summaryBuffer := "" }

/-- The parts of `st.session_state` the script touches: the `memory` entry
and the `_mem_config` fingerprint, each absent until first written. -/
structure SessionState where
  memory : Option Memory
  memConfig : Option String
  deriving DecidableEq, Repr

/-- Python's `str(...)` as applied by the f-string to `window_k`, which is
either `None` or an `int`. -/
def pyStr : Option Nat → String
  | none => "None"
  | some n => toString n

/-- Line 119 of `app.py`:
`mem_key = f"memory::" + memory_type + "::" + str(window_k)`
(written here with explicit concatenation in place of the f-string). -/
def mem_key (memory_type : String) (window_k : Option Nat) : String :=
  "memory::" ++ memory_type ++ "::" ++ pyStr window_k

/-- Python's `window_k or 6` (line 129): falls back to the default when
`window_k` is `None` or `0`. -/
def pyOrDefault (window_k : Option Nat) (d : Nat) : Nat :=
  match window_k with
  | none => d
  | some k => if k = 0 then d else k

/-- Lines 122-131 of `app.py`: construct a fresh memory object for the
current settings.  Every branch starts with an empty message list; the
summary branch captures the summarizer LLM's model name and API key; the
window branch fixes `k = window_k or 6`. -/
def mkMemory (memory_type : String) (window_k : Option Nat)
    (model_name api_key : String) : Memory :=
  if memory_type = "Buffer (all)" then
    { kind := .buffer, messages := [], summaryBuffer := "" }
  else if memory_type = "Summary (long chats)" then
    { kind := .summary ⟨model_name, api_key⟩, messages := [], summaryBuffer := "" }
  else if memory_type = "Window (last N)" then
    { kind := .window (pyOrDefault window_k 6), messages := [], summaryBuffer := "" }
  else
    { kind := .buffer, messages := [], summaryBuffer := "" }

/-- Lines 119-134 of `app.py`: recreate the session-state memory when
`_mem_config` is absent or differs from the requested `mem_key`; otherwise
leave the session state untouched. -/
def initMemory (s : SessionState) (memory_type : String) (window_k : Option Nat)
    (model_name api_key : String) : SessionState :=
  let key := mem_key memory_type window_k
  let needsNew : Bool :=
    match s.memConfig with
    | none => true
    | some c => c != key
  if needsNew then
    { memory := some (mkMemory memory_type window_k model_name api_key),
      memConfig := some key }
  else
    s

/-- Lines 106-110 of `app.py`: the Clear Chat button handler.  It calls
`st.session_state.memory.clear()` only when `"memory" in st.session_state`;
the success toast and `st.rerun()` do not modify session state. -/
def clearChat (s : SessionState) : SessionState :=
  match s.memory with
  | some m => { s with memory := some m.clear }
  | none => s

/-- Line 188 of `app.py`: the download button is rendered only when
`st.session_state.memory.chat_memory.messages` is truthy (non-empty). -/
def downloadAvailable (s : SessionState) : Bool :=
  match s.memory with
  | some m => !m.messages.isEmpty
  | none => false

/-- Outcome of one external chat-completion request: the completion string,
or a raised error (bad credentials, network failure, rate limit, ...). -/
inductive CallResult where
  | ok (resp : String)
  | err (msg : String)
  deriving DecidableEq, Repr

/-- `memory.save_context(inputs, outputs)` as run by the chain after a
successful completion call (LangChain `BaseChatMemory.save_context`): append
the human message then the AI message to `chat_memory.messages`.
`ConversationSummaryMemory.save_context` first runs that append and only
then invokes its summarizer LLM to fold the new messages into the running
summary buffer — a second, fallible external call, abstracted as the oracle
`summarize`.  If the summarizer raises, the two messages are already stored
and the buffer is left unchanged; the raised error is returned alongside the
updated memory. -/
def saveContext (summarize : String → List Message → Except String String)
    (m : Memory) (userMsg aiMsg : String) : Memory × Option String :=
  let newMsgs : List Message := [⟨.human, userMsg⟩, ⟨.ai, aiMsg⟩]
  match m.kind with
  | .summary _ =>
      match summarize m.summaryBuffer newMsgs with
      | .ok b =>
          ({ m with messages := m.messages ++ newMsgs, summaryBuffer := b },
            none)
      | .error e =>
          ({ m with messages := m.messages ++ newMsgs }, some e)
  | _ => ({ m with messages := m.messages ++ newMsgs }, none)

/-- `conversation.predict(input=...)` (line 177 of `app.py`), following
LangChain `Chain.__call__` semantics: the memory is read, the single
completion call is made, and only if it returns successfully is
`save_context` run; a completion-call exception propagates with the memory
untouched, while a summarizer exception raised inside `save_context`
propagates after the two messages were appended.  The completion call's
outcome is supplied as `call`. -/
def predict (summarize : String → List Message → Except String String)
    (m : Memory) (input : String) (call : CallResult) : Memory × CallResult :=
  match call with
  | .ok resp =>
      match saveContext summarize m input resp with
      | (m', none) => (m', .ok resp)
      | (m', some e) => (m', .err e)
  | .err e => (m, .err e)

/-- The memory variables loaded for the next model call
(`load_memory_variables` with `return_messages=True`): buffer memory returns
every stored message; window memory returns `messages[-k*2:]` when `k > 0`
and `[]` otherwise; summary memory returns one system message holding the
running summary. -/
def loadContext (m : Memory) : List Message :=
  match m.kind with
  | .buffer => m.messages
  | .window k =>
      if 0 < k then m.messages.drop (m.messages.length - 2 * k) else []
  | .summary _ => [⟨.system, m.summaryBuffer⟩]

/-- The placeholder states produced by the typing-effect loop (lines
181-185 of `app.py`): `accum` starts empty, each character is appended, and
every intermediate `accum` is rendered. -/
def typingStatesAux (accum : List Char) : List Char → List (List Char)
  | [] => []
  | c :: cs => (accum ++ [c]) :: typingStatesAux (accum ++ [c]) cs

/-- The sequence of strings the assistant placeholder displays while
revealing `s`. -/
def typingStates (s : String) : List String :=
  (typingStatesAux [] s.data).map fun l => ⟨l⟩

/-- Everything observable about one executed turn (lines 172-185 of
`app.py`): the memory afterwards, the placeholder states rendered by the
typing loop, the error surfaced by the framework when the turn raises, and
how many times `conversation.predict` was invoked (the script calls it
exactly once per turn, with no retry loop). -/
structure TurnResult where
  memoryAfter : Memory
  displayedStates : List String
  errorShown : Option String
  callCount : Nat
  deriving DecidableEq, Repr

/-- One turn of the chat loop: call `conversation.predict` once; when it
returns normally, run the typing-effect reveal of the full response; when it
raises — whether from the completion call or from the summarizer inside
`save_context` — the uncaught exception is rendered by Streamlit as a
visible error, `full_response` is never assigned and the reveal loop never
runs. -/
def runTurn (summarize : String → List Message → Except String String)
    (m : Memory) (input : String) (call : CallResult) : TurnResult :=
  match call with
  | .ok resp =>
      match predict summarize m input (.ok resp) with
      | (m', .ok _) =>
          { memoryAfter := m'
            displayedStates := typingStates resp
            errorShown := none
            callCount := 1 }
      | (m', .err e) =>
          { memoryAfter := m'
            displayedStates := []
            errorShown := some e
            callCount := 1 }
  | .err e =>
      { memoryAfter := m
        displayedStates := []
        errorShown := some e
        callCount := 1 }

/-- A sequence of turns run against one memory object: each element pairs
the user input with the outcome of that turn's completion call. -/
def runTurns (summarize : String → List Message → Except String String)
    (m : Memory) (turns : List (String × CallResult)) : Memory :=
  turns.foldl (fun mem t => (predict summarize mem t.1 t.2).1) m

/-- The turns of a sequence whose external completion call succeeded, as
(input, response) pairs in occurrence order.  (For the Summary strategy such
a turn may still fail afterwards, in the summarizer call inside
`save_context`.) -/
def okCallExchanges : List (String × CallResult) → List (String × String)
  | [] => []
  | (i, .ok r) :: ts => (i, r) :: okCallExchanges ts
  | (_, .err _) :: ts => okCallExchanges ts

/-- Whether a memory object is an instance of `ConversationSummaryMemory`. -/
def MemoryKind.isSummary : MemoryKind → Bool
  | .summary _ => true
  | _ => false

/-- The number of successfully completed turns of a sequence: turns for
which `conversation.predict` returned without raising — the completion call
succeeded and, under the Summary strategy, so did the follow-up summarizer
call. -/
def completedCount (summarize : String → List Message → Except String String)
    (m : Memory) : List (String × CallResult) → Nat
  | [] => 0
  | (i, c) :: ts =>
      match predict summarize m i c with
      | (m', .ok _) => 1 + completedCount summarize m' ts
      | (m', .err _) => completedCount summarize m' ts

/-- The message list generated by a list of completed exchanges: one
user-authored and one assistant-authored entry per exchange, in order. -/
def exchangesToMessages : List (String × String) → List Message
  | [] => []
  | (i, r) :: ps => ⟨.human, i⟩ :: ⟨.ai, r⟩ :: exchangesToMessages ps

/-- Python's `str.upper()` restricted to its ASCII action, which is all the
role tags (`"human"`, `"ai"`, `"system"`) exercise. -/
def pyUpper (s : String) : String :=
  ⟨s.data.map Char.toUpper⟩

/-- Line 192 of `app.py`: one transcript line,
`getattr(m, "type", "ai").upper() + ": " + m.content`. -/
def fmtMessage (m : Message) : String :=
  pyUpper m.role.pyType ++ ": " ++ m.content

/-- Lines 189-192 of `app.py`: the list `history_lines`. -/
def history_lines (msgs : List Message) : List String :=
  msgs.map fmtMessage

/-- Python's `"\n\n".join(lines)` (line 193 of `app.py`). -/
def joinBlank : List String → String
  | [] => ""
  | [l] => l
  | l :: l' :: ls => l ++ "\n\n" ++ joinBlank (l' :: ls)

/-- Line 193 of `app.py`: `history_text = "\n\n".join(history_lines)`. -/
def history_text (msgs : List Message) : String :=
  joinBlank (history_lines msgs)

/-- Character-level `"\n\n".join`, used to reason about the transcript. -/
def joinBlankChars : List (List Char) → List Char
  | [] => []
  | [g] => g
  | g :: g' :: gs => g ++ '\n' :: '\n' :: joinBlankChars (g' :: gs)

/-- Modelled from the spec: "splitting the transcript on blank-line
separators".  Splits a character sequence at each `"\n\n"` occurrence,
scanning left to right; this operation appears only in the spec's export
contract, not in the script itself. -/
def splitBlankChars : List Char → List (List Char)
  | [] => [[]]
  | [c] => [[c]]
  | c :: d :: rest =>
      if c = '\n' ∧ d = '\n' then
        [] :: splitBlankChars rest
      else
        (c :: (splitBlankChars (d :: rest)).headI) :: (splitBlankChars (d :: rest)).tail

/-- The result of one top-to-bottom script rerun, up to the point where the
turn would execute: the session state after the memory-initialization block,
whether the missing-key warning fired, whether `st.stop()` halted the script
before any model object was used, and whether an external model request
would be issued this rerun (`conversation.predict` runs only when the chat
input is truthy). -/
structure RerunResult where
  state : SessionState
  warnedMissingKey : Bool
  stopped : Bool
  modelCallAttempted : Bool
  deriving DecidableEq, Repr

/-- One script rerun (lines 113-177 of `app.py`): the key check
`if not GROQ_API_KEY` warns and stops before the memory block, the LLM build
and the chat loop; otherwise the memory-initialization block runs and a
model request is issued exactly when there is new (truthy) chat input.
`temperature` and `system_prompt` are taken as inputs because the script
reads them, but they feed only the LLM/prompt construction, never the
memory block. -/
def scriptRerun (s : SessionState) (api_key model_name : String)
    (temperature : Nat) (system_prompt : String) (memory_type : String)
    (window_k : Option Nat) (userInput : Option String) : RerunResult :=
  if api_key = "" then
    { state := s, warnedMissingKey := true, stopped := true,
      modelCallAttempted := false }
  else
    let _ := temperature
    let _ := system_prompt
    { state := initMemory s memory_type window_k model_name api_key
      warnedMissingKey := false
      stopped := false
      modelCallAttempted := !(userInput.getD "").isEmpty }

/-! ## Supporting lemmas -/

theorem mkMemory_messages (memory_type : String) (window_k : Option Nat)
    (model_name api_key : String) :
    (mkMemory memory_type window_k model_name api_key).messages = [] := by
  unfold mkMemory
  repeat first
  | rfl
  | split

theorem saveContext_messages
    (summarize : String → List Message → Except String String)
    (m : Memory) (u a : String) :
    (saveContext summarize m u a).1.messages
      = m.messages ++ [⟨.human, u⟩, ⟨.ai, a⟩] := by
  unfold saveContext
  dsimp only
  repeat first
  | rfl
  | split

theorem saveContext_kind
    (summarize : String → List Message → Except String String)
    (m : Memory) (u a : String) :
    (saveContext summarize m u a).1.kind = m.kind := by
  unfold saveContext
  dsimp only
  repeat first
  | rfl
  | split

theorem saveContext_snd_of_not_summary
    (summarize : String → List Message → Except String String)
    (m : Memory) (u a : String) (h : m.kind.isSummary = false) :
    (saveContext summarize m u a).2 = none := by
  unfold saveContext
  split
  · rename_i sc heq
    rw [heq] at h
    simp [MemoryKind.isSummary] at h
  · rfl

theorem predict_fst_ok
    (summarize : String → List Message → Except String String)
    (m : Memory) (i r : String) :
    (predict summarize m i (.ok r)).1 = (saveContext summarize m i r).1 := by
  cases h : saveContext summarize m i r with
  | mk m' serr => cases serr <;> simp [predict, h]

theorem predict_of_not_summary
    (summarize : String → List Message → Except String String)
    (m : Memory) (i r : String) (h : m.kind.isSummary = false) :
    predict summarize m i (.ok r) = ((saveContext summarize m i r).1, .ok r) := by
  have h2 := saveContext_snd_of_not_summary summarize m i r h
  cases hsc : saveContext summarize m i r with
  | mk m' serr =>
      rw [hsc] at h2
      simp only at h2
      subst h2
      simp [predict, hsc]

theorem runTurns_messages
    (summarize : String → List Message → Except String String) :
    ∀ (turns : List (String × CallResult)) (m : Memory),
      (runTurns summarize m turns).messages
        = m.messages ++ exchangesToMessages (okCallExchanges turns)
  | [], m => by simp [runTurns, okCallExchanges, exchangesToMessages]
  | (i, .ok r) :: ts, m => by
      have ih := runTurns_messages summarize ts (saveContext summarize m i r).1
      simp only [runTurns, List.foldl_cons] at ih ⊢
      rw [predict_fst_ok, ih, saveContext_messages]
      simp [okCallExchanges, exchangesToMessages]
  | (i, .err e) :: ts, m => by
      have ih := runTurns_messages summarize ts m
      simp only [runTurns, List.foldl_cons] at ih ⊢
      have hpred : (predict summarize m i (.err e)).1 = m := rfl
      rw [hpred, ih]
      simp [okCallExchanges]

theorem runTurns_kind
    (summarize : String → List Message → Except String String) :
    ∀ (turns : List (String × CallResult)) (m : Memory),
      (runTurns summarize m turns).kind = m.kind
  | [], _ => rfl
  | (i, .ok r) :: ts, m => by
      have ih := runTurns_kind summarize ts (saveContext summarize m i r).1
      simp only [runTurns, List.foldl_cons] at ih ⊢
      rw [predict_fst_ok, ih, saveContext_kind]
  | (i, .err e) :: ts, m => by
      have ih := runTurns_kind summarize ts m
      simp only [runTurns, List.foldl_cons] at ih ⊢
      have hpred : (predict summarize m i (.err e)).1 = m := rfl
      rw [hpred]
      exact ih

theorem completedCount_le
    (summarize : String → List Message → Except String String) :
    ∀ (ts : List (String × CallResult)) (m : Memory),
      completedCount summarize m ts ≤ (okCallExchanges ts).length
  | [], _ => Nat.le_refl 0
  | (i, .ok r) :: ts, m => by
      cases hp : predict summarize m i (.ok r) with
      | mk m' res =>
          cases res with
          | ok resp =>
              have ih := completedCount_le summarize ts m'
              simp only [completedCount, hp, okCallExchanges, List.length_cons]
              omega
          | err e =>
              have ih := completedCount_le summarize ts m'
              simp only [completedCount, hp, okCallExchanges, List.length_cons]
              omega
  | (i, .err e) :: ts, m => by
      have ih := completedCount_le summarize ts m
      have hp : predict summarize m i (.err e) = (m, .err e) := rfl
      simp only [completedCount, hp, okCallExchanges]
      exact ih

theorem completedCount_eq_of_not_summary
    (summarize : String → List Message → Except String String) :
    ∀ (ts : List (String × CallResult)) (m : Memory),
      m.kind.isSummary = false →
      completedCount summarize m ts = (okCallExchanges ts).length
  | [], _, _ => rfl
  | (i, .ok r) :: ts, m, h => by
      have hp := predict_of_not_summary summarize m i r h
      have hkind := saveContext_kind summarize m i r
      have ih := completedCount_eq_of_not_summary summarize ts
        (saveContext summarize m i r).1 (by rw [hkind]; exact h)
      simp only [completedCount, hp, okCallExchanges, List.length_cons, ih]
      omega
  | (i, .err e) :: ts, m, h => by
      have ih := completedCount_eq_of_not_summary summarize ts m h
      have hp : predict summarize m i (.err e) = (m, .err e) := rfl
      simp only [completedCount, hp, okCallExchanges]
      exact ih

theorem exchangesToMessages_length :
    ∀ ps : List (String × String),
      (exchangesToMessages ps).length = 2 * ps.length
  | [] => rfl
  | (i, r) :: ps => by
      simp only [exchangesToMessages, List.length_cons]
      rw [exchangesToMessages_length ps]
      omega

theorem okCallExchanges_map_ok :
    ∀ ts : List (String × String),
      okCallExchanges (ts.map fun p => (p.1, CallResult.ok p.2)) = ts
  | [] => rfl
  | (i, r) :: ts => by
      simp only [List.map_cons, okCallExchanges]
      rw [okCallExchanges_map_ok ts]

theorem typingStatesAux_prefixes :
    ∀ (cs accum : List Char) (x : List Char),
      x ∈ typingStatesAux accum cs → accum <+: x ∧ x <+: accum ++ cs
  | [], _, x => by simp [typingStatesAux]
  | c :: cs, accum, x => by
      intro hx
      simp only [typingStatesAux, List.mem_cons] at hx
      rcases hx with rfl | hx
      · exact ⟨⟨[c], rfl⟩, ⟨cs, by simp⟩⟩
      · have h := typingStatesAux_prefixes cs (accum ++ [c]) x hx
        refine ⟨?_, by simpa using h.2⟩
        exact List.IsPrefix.trans ⟨[c], rfl⟩ h.1

theorem typingStatesAux_getLast :
    ∀ (cs accum : List Char),
      (typingStatesAux accum cs).getLast? =
        if cs.isEmpty then none else some (accum ++ cs)
  | [], _ => rfl
  | [c], accum => by simp [typingStatesAux]
  | c :: c' :: cs, accum => by
      have ih := typingStatesAux_getLast (c' :: cs) (accum ++ [c])
      simp only [typingStatesAux] at ih ⊢
      rw [List.getLast?_cons_cons, ih]
      simp

theorem splitBlankChars_cons_cons (c d : Char) (rest : List Char) :
    splitBlankChars (c :: d :: rest)
      = if c = '\n' ∧ d = '\n' then [] :: splitBlankChars rest
        else (c :: (splitBlankChars (d :: rest)).headI)
          :: (splitBlankChars (d :: rest)).tail := rfl

theorem splitBlankChars_ne_nil : ∀ l : List Char, splitBlankChars l ≠ []
  | [] => by simp [splitBlankChars]
  | [c] => by simp [splitBlankChars]
  | c :: d :: rest => by
      unfold splitBlankChars
      split <;> simp

theorem splitBlankChars_no_newline :
    ∀ l : List Char, '\n' ∉ l → splitBlankChars l = [l]
  | [], _ => rfl
  | [c], _ => rfl
  | c :: d :: rest, h => by
      have hc : c ≠ '\n' := fun e => h (by simp [e])
      have hrest : '\n' ∉ d :: rest := fun hm => h (List.mem_cons_of_mem _ hm)
      have ih := splitBlankChars_no_newline (d :: rest) hrest
      unfold splitBlankChars
      rw [if_neg (by tauto), ih]
      simp

theorem splitBlankChars_append_sep :
    ∀ (g t : List Char), '\n' ∉ g →
      splitBlankChars (g ++ '\n' :: '\n' :: t) = g :: splitBlankChars t
  | [], t, _ => by
      simp only [List.nil_append]
      rw [splitBlankChars_cons_cons, if_pos ⟨rfl, rfl⟩]
  | [c], t, h => by
      have hc : c ≠ '\n' := fun e => h (by simp [e])
      have hsep : splitBlankChars ('\n' :: '\n' :: t) = [] :: splitBlankChars t := by
        rw [splitBlankChars_cons_cons, if_pos ⟨rfl, rfl⟩]
      simp only [List.cons_append, List.nil_append]
      rw [splitBlankChars_cons_cons, if_neg (by tauto), hsep]
      simp
  | c :: c' :: g', t, h => by
      have hc : c ≠ '\n' := fun e => h (by simp [e])
      have hg' : '\n' ∉ c' :: g' := fun hm => h (List.mem_cons_of_mem _ hm)
      have ih := splitBlankChars_append_sep (c' :: g') t hg'
      simp only [List.cons_append] at ih ⊢
      rw [splitBlankChars_cons_cons, if_neg (by tauto), ih]
      simp

theorem splitBlankChars_joinBlankChars :
    ∀ gs : List (List Char), gs ≠ [] → (∀ g ∈ gs, '\n' ∉ g) →
      splitBlankChars (joinBlankChars gs) = gs
  | [], hne, _ => absurd rfl hne
  | [g], _, h => by
      simpa [joinBlankChars] using
        splitBlankChars_no_newline g (h g (by simp))
  | g :: g' :: gs, _, h => by
      have ih := splitBlankChars_joinBlankChars (g' :: gs) (by simp)
        (fun x hx => h x (List.mem_cons_of_mem _ hx))
      simp only [joinBlankChars]
      rw [splitBlankChars_append_sep g _ (h g (by simp)), ih]

theorem data_joinBlank :
    ∀ ls : List String, (joinBlank ls).data = joinBlankChars (ls.map String.data)
  | [] => rfl
  | [l] => rfl
  | l :: l' :: ls => by
      have ih := data_joinBlank (l' :: ls)
      simp only [joinBlank, joinBlankChars, List.map_cons] at ih ⊢
      rw [show (l ++ "\n\n" ++ joinBlank (l' :: ls)).data
            = l.data ++ '\n' :: '\n' :: (joinBlank (l' :: ls)).data from by
          simp [String.data_append]]
      rw [ih]

/-! ## Claims -/

/-- C1: the session memory is keyed by `mem_key` (strategy name plus
window-size parameter).  On every rerun, if the recorded configuration key
differs from the requested one (or none is recorded), the old memory object
is discarded and a fresh one is stored — and every freshly constructed
memory has an empty message list, regardless of prior content; if the key is
unchanged, the session state (hence the existing memory object) is kept
as-is. -/
theorem C1_memory_keyed_by_config (s : SessionState) (memory_type : String)
    (window_k : Option Nat) (model_name api_key : String) :
    initMemory s memory_type window_k model_name api_key
      = (if s.memConfig = some (mem_key memory_type window_k) then s
         else { memory := some (mkMemory memory_type window_k model_name api_key),
                memConfig := some (mem_key memory_type window_k) }) ∧
    (mkMemory memory_type window_k model_name api_key).messages = [] := by
  refine ⟨?_, mkMemory_messages memory_type window_k model_name api_key⟩
  cases hc : s.memConfig with
  | none => simp [initMemory, hc]
  | some c =>
      by_cases h : c = mem_key memory_type window_k
      · simp [initMemory, hc, h]
      · simp [initMemory, hc, h, bne_iff_ne]

/-- C2: when the external model call of a turn raises (bad credentials,
network error, rate limit), the memory is unchanged — neither the user
message nor any partial response is stored — the error is surfaced to the
user as a visible error, no reveal output is rendered, and
`conversation.predict` was invoked exactly once (no automatic retry). -/
theorem C2_failed_call_leaves_memory_unchanged
    (summarize : String → List Message → Except String String) (m : Memory)
    (input e : String) :
    (runTurn summarize m input (.err e)).memoryAfter = m ∧
    (runTurn summarize m input (.err e)).errorShown = some e ∧
    (runTurn summarize m input (.err e)).displayedStates = [] ∧
    (runTurn summarize m input (.err e)).callCount = 1 :=
  ⟨rfl, rfl, rfl, rfl⟩

/-- Counterexample to C3 as stated: under the Summary strategy a turn can
fail after its completion call succeeded — `ConversationSummaryMemory`'s
`save_context` appends both messages first and only then invokes the
summarizer LLM, so when that second call raises, the failed turn has already
stored its two entries.  Concretely: one turn whose completion call returns
`"hello"` but whose summarizer call raises completes zero turns yet leaves
two messages stored, refuting `length = 2 * successfully completed`. -/
theorem C3_counterexample_failed_summary_turn_stores_messages :
    ¬((runTurns (fun _ _ => Except.error "summarizer rate limit")
        (mkMemory "Summary (long chats)" none "m" "k")
        [("hi", CallResult.ok "hello")]).messages.length
      = 2 * completedCount (fun _ _ => Except.error "summarizer rate limit")
          (mkMemory "Summary (long chats)" none "m" "k")
          [("hi", CallResult.ok "hello")]) := by decide

/-- C3 amended: for any sequence of turns against a freshly configured
memory, the stored message list is exactly one user-authored plus one
assistant-authored entry, in occurrence order, for each turn whose external
completion call succeeded; its length is twice the number of such turns, and
turns whose completion call failed contribute nothing.  The number of
successfully completed turns never exceeds that count, and for the non-Summary
strategies (whose save path makes no further external call) the two
coincide, which gives the claim's original equality; under the Summary
strategy a turn whose follow-up summarizer call fails is a failed turn that
nevertheless stores its two entries. -/
theorem C3_message_list_length
    (summarize : String → List Message → Except String String)
    (memory_type : String) (window_k : Option Nat) (model_name api_key : String)
    (turns : List (String × CallResult)) :
    (runTurns summarize (mkMemory memory_type window_k model_name api_key)
        turns).messages
      = exchangesToMessages (okCallExchanges turns) ∧
    (runTurns summarize (mkMemory memory_type window_k model_name api_key)
        turns).messages.length
      = 2 * (okCallExchanges turns).length ∧
    completedCount summarize (mkMemory memory_type window_k model_name api_key)
        turns
      ≤ (okCallExchanges turns).length ∧
    ((mkMemory memory_type window_k model_name api_key).kind.isSummary = false →
      completedCount summarize
          (mkMemory memory_type window_k model_name api_key) turns
        = (okCallExchanges turns).length) := by
  have h := runTurns_messages summarize turns
    (mkMemory memory_type window_k model_name api_key)
  rw [mkMemory_messages, List.nil_append] at h
  exact ⟨h, by rw [h, exchangesToMessages_length],
    completedCount_le summarize turns _,
    fun hk => completedCount_eq_of_not_summary summarize turns _ hk⟩

/-- Witness for the amended C3: a Buffer-strategy run with one successful
and one failed turn — the non-Summary hypothesis holds and the completed
count equals the successful-call count. -/
theorem C3_witness :
    (mkMemory "Buffer (all)" none "m" "k").kind.isSummary = false ∧
    completedCount (fun _ _ => Except.ok "")
        (mkMemory "Buffer (all)" none "m" "k")
        [("a", CallResult.ok "b"), ("x", CallResult.err "boom")]
      = (okCallExchanges
          [("a", CallResult.ok "b"), ("x", CallResult.err "boom")]).length :=
  ⟨by decide,
    (C3_message_list_length (fun _ _ => Except.ok "") "Buffer (all)" none
      "m" "k" [("a", CallResult.ok "b"), ("x", CallResult.err "boom")]).2.2.2
      (by decide)⟩

/-- C8: the typing-effect reveal is pure presentation.  For a turn whose
completion call succeeded, the memory afterwards is exactly what
`conversation.predict` stored — the full response as the assistant entry,
written once — every placeholder state of the reveal loop is a prefix of the
response and none of them is stored; the reveal loop runs exactly when
`predict` returned without raising (with a summarizer failure nothing is
revealed), and the last state a completed reveal displays is the full
response. -/
theorem C8_typing_effect_is_presentation_only
    (summarize : String → List Message → Except String String) (m : Memory)
    (input resp : String) :
    (runTurn summarize m input (.ok resp)).memoryAfter
      = (predict summarize m input (.ok resp)).1 ∧
    (runTurn summarize m input (.ok resp)).memoryAfter.messages
      = m.messages ++ [⟨.human, input⟩, ⟨.ai, resp⟩] ∧
    (∀ d ∈ (runTurn summarize m input (.ok resp)).displayedStates,
      d.data <+: resp.data) ∧
    (runTurn summarize m input (.ok resp)).displayedStates
      = (match (predict summarize m input (.ok resp)).2 with
         | .ok _ => typingStates resp
         | .err _ => []) ∧
    (typingStates resp).getLast? = (if resp = "" then none else some resp) := by
  have hfst : (runTurn summarize m input (.ok resp)).memoryAfter
      = (predict summarize m input (.ok resp)).1 := by
    cases hp : predict summarize m input (.ok resp) with
    | mk m' res => cases res <;> simp [runTurn, hp]
  have hdisp : (runTurn summarize m input (.ok resp)).displayedStates
      = (match (predict summarize m input (.ok resp)).2 with
         | .ok _ => typingStates resp
         | .err _ => []) := by
    cases hp : predict summarize m input (.ok resp) with
    | mk m' res => cases res <;> simp [runTurn, hp]
  refine ⟨hfst, ?_, ?_, hdisp, ?_⟩
  · rw [hfst, predict_fst_ok, saveContext_messages]
  · intro d hd
    rw [hdisp] at hd
    cases hres : (predict summarize m input (.ok resp)).2 with
    | ok r =>
        rw [hres] at hd
        simp only [typingStates, List.mem_map] at hd
        obtain ⟨l, hl, rfl⟩ := hd
        exact (typingStatesAux_prefixes resp.data [] l hl).2
    | err e =>
        rw [hres] at hd
        simp at hd
  · rw [typingStates, List.getLast?_map, typingStatesAux_getLast]
    by_cases h : resp = ""
    · subst h; rfl
    · have hd : ¬resp.data.isEmpty := by
        cases resp with
        | mk data =>
            cases data with
            | nil => exact absurd rfl h
            | cons c cs => simp
      rw [if_neg hd, if_neg h]
      simp only [Option.map_some, List.nil_append]
      rfl

theorem fmtMessage_no_newline (m : Message) (h : '\n' ∉ m.content.data) :
    '\n' ∉ (fmtMessage m).data := by
  have hrole : '\n' ∉ (pyUpper m.role.pyType).data := by
    cases m.role <;> decide
  intro hmem
  rw [fmtMessage, String.data_append, String.data_append] at hmem
  rcases List.mem_append.1 hmem with hx | hx
  · rcases List.mem_append.1 hx with hy | hy
    · exact hrole hy
    · simp at hy
  · exact h hx

/-- C4: the export serializes the message list into a transcript with one
newline-free line per stored message, formatted as the uppercased role label
followed by `": "` and the raw (unescaped) content, entries joined by a
blank line; splitting the transcript on blank-line separators recovers
exactly one entry per message.  (The labels produced by the code are
`"HUMAN"`/`"AI"` — LangChain's `type` tags uppercased — so user-authored
entries begin with `"HUMAN: "`, the applicable role label.)  The
newline-freeness hypothesis reflects the spec's accepted ambiguity for
contents embedding newlines. -/
theorem C4_transcript_roundtrip (msgs : List Message) (hne : msgs ≠ [])
    (h : ∀ m ∈ msgs, '\n' ∉ m.content.data) :
    history_lines msgs = msgs.map fmtMessage ∧
    splitBlankChars (history_text msgs).data
      = (msgs.map fmtMessage).map String.data ∧
    ((msgs.map fmtMessage).map String.data).length = msgs.length ∧
    (∀ m ∈ msgs, '\n' ∉ (fmtMessage m).data) ∧
    (∀ m ∈ msgs, ∃ rest,
      fmtMessage m = pyUpper m.role.pyType ++ ": " ++ rest ∧ rest = m.content) := by
  refine ⟨rfl, ?_, by simp, fun m hm => fmtMessage_no_newline m (h m hm),
    fun m _ => ⟨m.content, rfl, rfl⟩⟩
  rw [history_text, data_joinBlank]
  refine splitBlankChars_joinBlankChars _ (by simp [history_lines, hne]) ?_
  intro g hg
  simp only [history_lines, List.map_map, List.mem_map] at hg
  obtain ⟨m, hm, rfl⟩ := hg
  exact fmtMessage_no_newline m (h m hm)

/-- Witness for C4 at the spec's own example: `[("user","Hello"),
("assistant","<response>")]` exports to two entries that split back
exactly. -/
theorem C4_witness :
    ([⟨.human, "Hello"⟩, ⟨.ai, "Hi"⟩] : List Message) ≠ [] ∧
    (∀ m ∈ ([⟨.human, "Hello"⟩, ⟨.ai, "Hi"⟩] : List Message),
      '\n' ∉ m.content.data) ∧
    splitBlankChars (history_text [⟨.human, "Hello"⟩, ⟨.ai, "Hi"⟩]).data
      = (([⟨.human, "Hello"⟩, ⟨.ai, "Hi"⟩] : List Message).map fmtMessage).map
          String.data :=
  ⟨by decide, by decide,
    (C4_transcript_roundtrip [⟨.human, "Hello"⟩, ⟨.ai, "Hi"⟩] (by decide)
      (by decide)).2.1⟩

/-- C5: under the keep-last-N (window) strategy with window size `N`, after
more than `N` successful exchanges the context loaded for the next model
call is exactly the suffix of the `2 * N` most recent stored messages, i.e.
the `N` most recent exchanges — so at most `N` exchanges are retained. -/
theorem C5_window_keeps_last_n
    (summarize : String → List Message → Except String String)
    (model_name api_key : String) (N : Nat) (hN : 0 < N)
    (ts : List (String × String)) (hts : N < ts.length) :
    loadContext (runTurns summarize
        (mkMemory "Window (last N)" (some N) model_name api_key)
        (ts.map fun p => (p.1, CallResult.ok p.2)))
      = (runTurns summarize
          (mkMemory "Window (last N)" (some N) model_name api_key)
          (ts.map fun p => (p.1, CallResult.ok p.2))).messages.drop
            ((runTurns summarize
              (mkMemory "Window (last N)" (some N) model_name api_key)
              (ts.map fun p => (p.1, CallResult.ok p.2))).messages.length - 2 * N) ∧
    (loadContext (runTurns summarize
        (mkMemory "Window (last N)" (some N) model_name api_key)
        (ts.map fun p => (p.1, CallResult.ok p.2)))).length = 2 * N ∧
    loadContext (runTurns summarize
        (mkMemory "Window (last N)" (some N) model_name api_key)
        (ts.map fun p => (p.1, CallResult.ok p.2)))
      <:+ (runTurns summarize
          (mkMemory "Window (last N)" (some N) model_name api_key)
          (ts.map fun p => (p.1, CallResult.ok p.2))).messages := by
  have hkind : (runTurns summarize
      (mkMemory "Window (last N)" (some N) model_name api_key)
      (ts.map fun p => (p.1, CallResult.ok p.2))).kind = .window N := by
    rw [runTurns_kind]
    have : pyOrDefault (some N) 6 = N := by
      simp [pyOrDefault, Nat.pos_iff_ne_zero.1 hN]
    simp [mkMemory, this]
  have hlen : (runTurns summarize
      (mkMemory "Window (last N)" (some N) model_name api_key)
      (ts.map fun p => (p.1, CallResult.ok p.2))).messages.length
      = 2 * ts.length := by
    have h := runTurns_messages summarize
      (ts.map fun p => (p.1, CallResult.ok p.2))
      (mkMemory "Window (last N)" (some N) model_name api_key)
    rw [mkMemory_messages, List.nil_append, okCallExchanges_map_ok] at h
    rw [h, exchangesToMessages_length]
  have hload : loadContext (runTurns summarize
      (mkMemory "Window (last N)" (some N) model_name api_key)
      (ts.map fun p => (p.1, CallResult.ok p.2)))
      = (runTurns summarize
          (mkMemory "Window (last N)" (some N) model_name api_key)
          (ts.map fun p => (p.1, CallResult.ok p.2))).messages.drop
            ((runTurns summarize
              (mkMemory "Window (last N)" (some N) model_name api_key)
              (ts.map fun p => (p.1, CallResult.ok p.2))).messages.length - 2 * N) := by
    simp only [loadContext, hkind]
    rw [if_pos hN]
  refine ⟨hload, ?_, ?_⟩
  · rw [hload, List.length_drop, hlen]
    omega
  · rw [hload]
    exact List.drop_suffix _ _

/-- Witness for C5: window size 1, two completed exchanges — the loaded
context is the single most recent exchange. -/
theorem C5_witness :
    0 < 1 ∧
    1 < ([("a", "b"), ("c", "d")] : List (String × String)).length ∧
    (loadContext (runTurns (fun _ _ => Except.ok "")
        (mkMemory "Window (last N)" (some 1) "m" "k")
        (([("a", "b"), ("c", "d")] : List (String × String)).map
          fun p => (p.1, CallResult.ok p.2)))).length = 2 * 1 :=
  ⟨by decide, by decide,
    (C5_window_keeps_last_n (fun _ _ => Except.ok "") "m" "k" 1 (by decide)
      [("a", "b"), ("c", "d")] (by decide)).2.1⟩

/-- Counterexample to C6 as stated: an invalid (but non-empty) credential
does not fail fast — the script's pre-check tests only emptiness, so a rerun
with a wrong key and fresh chat input still issues a model request. -/
theorem C6_counterexample_invalid_key_reaches_call :
    ¬ ∀ (valid : String → Bool) (key : String) (inp : Option String),
        valid key = false →
        (scriptRerun ⟨none, none⟩ key "deepseek-r1-distill-llama-70b" 0
          "You are a friendly, efficient assistant." "Buffer (all)" none
          inp).modelCallAttempted = false := fun h =>
  absurd
    (h (fun _ => false) "not-a-valid-groq-key" (some "hi") rfl)
    (by decide)

/-- C6 amended: only a missing (empty) credential causes the fail-fast path
— the warning is shown, the script stops before the memory block, the LLM
build and any model call, and the session state is untouched; the script
stops on a rerun exactly when the credential is empty, so a non-empty
invalid credential passes the pre-check and is rejected only by the model
call itself. -/
theorem C6_missing_key_fails_fast (s : SessionState)
    (k model_name system_prompt memory_type : String) (temperature : Nat)
    (window_k : Option Nat) (inp : Option String) :
    (scriptRerun s "" model_name temperature system_prompt memory_type
      window_k inp).stopped = true ∧
    (scriptRerun s "" model_name temperature system_prompt memory_type
      window_k inp).warnedMissingKey = true ∧
    (scriptRerun s "" model_name temperature system_prompt memory_type
      window_k inp).modelCallAttempted = false ∧
    (scriptRerun s "" model_name temperature system_prompt memory_type
      window_k inp).state = s ∧
    (scriptRerun s k model_name temperature system_prompt memory_type
      window_k inp).stopped = decide (k = "") := by
  refine ⟨rfl, rfl, rfl, rfl, ?_⟩
  by_cases h : k = "" <;> simp [scriptRerun, h]

/-- C7: clearing the chat with a memory object present (non-empty session)
replaces its message list by the empty list, after which the download/export
action — offered only for a non-empty stored message list — is
unavailable. -/
theorem C7_clear_empties_and_disables_export (s : SessionState) (m : Memory)
    (hm : s.memory = some m) (_hne : m.messages ≠ []) :
    (clearChat s).memory = some m.clear ∧
    m.clear.messages = [] ∧
    downloadAvailable (clearChat s) = false := by
  refine ⟨by simp [clearChat, hm], rfl, ?_⟩
  simp [downloadAvailable, clearChat, hm, Memory.clear]

/-- Witness for C7: a session holding one stored message. -/
theorem C7_witness :
    ([⟨Role.human, "hi"⟩] : List Message) ≠ [] ∧
    downloadAvailable (clearChat
      ⟨some ⟨.buffer, [⟨.human, "hi"⟩], ""⟩, some "memory::Buffer (all)::None"⟩)
      = false :=
  ⟨by decide,
    (C7_clear_empties_and_disables_export
      ⟨some ⟨.buffer, [⟨.human, "hi"⟩], ""⟩, some "memory::Buffer (all)::None"⟩
      ⟨.buffer, [⟨.human, "hi"⟩], ""⟩ rfl (by decide)).2.2⟩

/-- C9: the configuration key covers only the strategy name and the window
size, so a rerun with the same strategy and window size — but a different
model identifier, API key, temperature, or system prompt — keeps the
existing memory object unchanged; in particular a Summary-strategy memory
created with a given model name and API key still carries that summarizer
configuration afterwards. -/
theorem C9_key_ignores_model_and_credentials (s : SessionState)
    (memory_type : String) (window_k : Option Nat)
    (mn ak mn' ak' sp sp' : String) (t t' : Nat) (inp inp' : Option String)
    (hs : s.memConfig = some (mem_key memory_type window_k)) (hak : ak ≠ "") :
    (scriptRerun s ak' mn' t' sp' memory_type window_k inp').state = s ∧
    (scriptRerun ⟨none, none⟩ ak mn t sp "Summary (long chats)" window_k
      inp).state.memory
      = some (mkMemory "Summary (long chats)" window_k mn ak) ∧
    (mkMemory "Summary (long chats)" window_k mn ak).kind
      = MemoryKind.summary ⟨mn, ak⟩ := by
  refine ⟨?_, ?_, rfl⟩
  · by_cases h : ak' = ""
    · simp [scriptRerun, h]
    · simp [scriptRerun, h, initMemory, hs]
  · simp [scriptRerun, hak, initMemory]

/-- Witness for C9: a Summary-memory session built with one model/key pair
survives a rerun that changes the model, key, temperature, and prompt. -/
theorem C9_witness :
    (⟨some ⟨.summary ⟨"m0", "k0"⟩, [⟨.human, "a"⟩], ""⟩,
        some "memory::Summary (long chats)::None"⟩ : SessionState).memConfig
      = some (mem_key "Summary (long chats)" none) ∧
    ("k0" : String) ≠ "" ∧
    (scriptRerun
      ⟨some ⟨.summary ⟨"m0", "k0"⟩, [⟨.human, "a"⟩], ""⟩,
        some "memory::Summary (long chats)::None"⟩
      "k1" "m1" 1 "p1" "Summary (long chats)" none none).state
      = ⟨some ⟨.summary ⟨"m0", "k0"⟩, [⟨.human, "a"⟩], ""⟩,
          some "memory::Summary (long chats)::None"⟩ :=
  ⟨by decide, by decide,
    (C9_key_ignores_model_and_credentials
      ⟨some ⟨.summary ⟨"m0", "k0"⟩, [⟨.human, "a"⟩], ""⟩,
        some "memory::Summary (long chats)::None"⟩
      "Summary (long chats)" none "m0" "k0" "m1" "k1" "p0" "p1" 0 1 none none
      (by decide) (by decide)).1⟩

/-- C10: pressing Clear Chat when no memory object exists in the session
state is a guarded no-op — the handler checks membership first, so nothing
is raised and the session state is returned unchanged. -/
theorem C10_clear_without_memory_is_noop (memConfig : Option String) :
    clearChat ⟨none, memConfig⟩ = ⟨none, memConfig⟩ := rfl

end GroqChatbot
